import Mathlib

/-!
Verification of the wall-occluded visibility core of MyGame (src/MyGame/MyGame.cpp).

The embedding models the C++ floats as exact real numbers. The functions
`cross2`, `raySegmentIntersect`, `computeVisibilityPolygon` and
`buildSoftFan_Screen` below are direct translations of the source functions of
the same names; `visibilityFanDraws` models the darkness-overlay block of
`main` (lines 1046-1061) that decides which fan draw calls are issued.
`std::atan2` is modelled through `Complex.arg` (same range `(-pi, pi]`), and
`std::sort` on the hit list through `List.mergeSort` with the non-strict
ordering induced by the source comparator `a.angle < b.angle`; ties in angle
carry identical hit points, so the tie-breaking freedom of `std::sort` does
not affect the returned polygon.
-/

namespace MyGame

noncomputable section

/-- A 2D float vector (`sf::Vector2f`), modelled with real coordinates. -/
structure Vec2 where
  x : ℝ
  y : ℝ

/-- Source `cross2`: the 2D cross product `a.x * b.y - a.y * b.x`. -/
def cross2 (a b : Vec2) : ℝ := a.x * b.y - a.y * b.x

/-- The point `p + t * r`, as the source writes hit points and range-limited
fallback points. -/
def pointAt (p r : Vec2) (t : ℝ) : Vec2 := ⟨p.x + t * r.x, p.y + t * r.y⟩

/-- The solved ray parameter `t = cross2 (q - p) s / cross2 r s` of the 2x2
system of `raySegmentIntersect` (the source's local `t`). -/
def tSolved (p r q s : Vec2) : ℝ := cross2 ⟨q.x - p.x, q.y - p.y⟩ s / cross2 r s

/-- The solved segment parameter `u = cross2 (q - p) r / cross2 r s` of the
2x2 system of `raySegmentIntersect` (the source's local `u`). -/
def uSolved (p r q s : Vec2) : ℝ := cross2 ⟨q.x - p.x, q.y - p.y⟩ r / cross2 r s

/-- Source `raySegmentIntersect`: solves the 2x2 system for the ray parameter
`t` and segment parameter `u`; returns `none` when `|cross2 r s| < 1e-8`
(near-parallel) or when the solved parameters fail `t >= 0 && u >= 0 && u <= 1`,
otherwise `some (t, hitPoint)`. -/
def raySegmentIntersect (p r q s : Vec2) : Option (ℝ × Vec2) :=
  if |cross2 r s| < 1e-8 then none
  else if 0 ≤ tSolved p r q s ∧ 0 ≤ uSolved p r q s ∧ uSolved p r q s ≤ 1 then
    some (tSolved p r q s, pointAt p r (tSolved p r q s))
  else none

/-- Source `Segment`: one occluder edge with endpoints `a`, `b`. -/
structure Segment where
  a : Vec2
  b : Vec2

/-- The segment's delta vector `seg.b - seg.a`, as computed in the ray loop of
`computeVisibilityPolygon`. -/
def segDelta (seg : Segment) : Vec2 := ⟨seg.b.x - seg.a.x, seg.b.y - seg.a.y⟩

/-- Source `std::atan2(y, x)`, modelled by the argument of the complex number
`x + y * I`; both have range `(-pi, pi]` on nonzero input and value `0` at the
origin. -/
def atan2 (y x : ℝ) : ℝ := Complex.arg ⟨x, y⟩

/-- The source's corner-bracketing epsilon `0.0007` rad. -/
def visEps : ℝ := 0.0007

/-- The ray direction `(cos ang, sin ang)` the source builds for a sampled
angle. -/
def dirOf (ang : ℝ) : Vec2 := ⟨Real.cos ang, Real.sin ang⟩

/-- Source lambda `addAnglesForPoint`: the three samples
`[a - eps, a, a + eps]` around the endpoint's `atan2` angle. -/
def anglesForPoint (origin pt : Vec2) : List ℝ :=
  [atan2 (pt.y - origin.y) (pt.x - origin.x) - visEps,
   atan2 (pt.y - origin.y) (pt.x - origin.x),
   atan2 (pt.y - origin.y) (pt.x - origin.x) + visEps]

/-- The `angles` list of `computeVisibilityPolygon`: three samples for each of
the two endpoints of each segment, in segment order. -/
def segmentAngles (origin : Vec2) (segs : List Segment) : List ℝ :=
  segs.flatMap fun s => anglesForPoint origin s.a ++ anglesForPoint origin s.b

/-- One iteration of the inner loop of `computeVisibilityPolygon`: the
accumulator is `(bestT, bestP)`, with `bestT = none` standing for the initial
`float` infinity (every finite `tHit` compares below it). -/
def castStep (origin dir : Vec2) (maxDist : ℝ) (acc : Option ℝ × Vec2)
    (seg : Segment) : Option ℝ × Vec2 :=
  match raySegmentIntersect origin dir seg.a (segDelta seg) with
  | none => acc
  | some (tHit, hp) =>
    match acc.1 with
    | none => if tHit ≤ maxDist then (some tHit, hp) else acc
    | some bT => if tHit < bT ∧ tHit ≤ maxDist then (some tHit, hp) else acc

/-- The inner loop of `computeVisibilityPolygon` for one sampled angle:
starting from `bestT = infinity` and the range-limited fallback point, scan
all segments. -/
def castRay (origin : Vec2) (segs : List Segment) (maxDist : ℝ) (ang : ℝ) :
    Option ℝ × Vec2 :=
  segs.foldl (castStep origin (dirOf ang) maxDist)
    (none, pointAt origin (dirOf ang) maxDist)

/-- The unsorted `hits` list of `computeVisibilityPolygon`: one
`(angle, bestP)` pair per sampled angle. -/
def visHits (origin : Vec2) (segs : List Segment) (maxDist : ℝ) :
    List (ℝ × Vec2) :=
  (segmentAngles origin segs).map fun ang =>
    (ang, (castRay origin segs maxDist ang).2)

/-- The non-strict order induced by the source's `std::sort` comparator
`a.angle < b.angle`. -/
def hitLE (h1 h2 : ℝ × Vec2) : Bool := decide (h1.1 ≤ h2.1)

/-- The `hits` list after the source's `std::sort` by ascending angle. -/
def sortedHits (origin : Vec2) (segs : List Segment) (maxDist : ℝ) :
    List (ℝ × Vec2) :=
  (visHits origin segs maxDist).mergeSort hitLE

/-- Source `computeVisibilityPolygon`: the hit points in ascending-angle
order. -/
def computeVisibilityPolygon (origin : Vec2) (segs : List Segment)
    (maxDist : ℝ) : List Vec2 :=
  (sortedHits origin segs maxDist).map Prod.snd

/-- Shape invariant of the inner-loop accumulator: with no accepted hit the
point is the range-limited fallback; with best parameter `bT` the point lies
on the ray at parameter `bT` with `0 ≤ bT ≤ maxDist`. -/
def accShape (origin dir : Vec2) (maxDist : ℝ) (acc : Option ℝ × Vec2) : Prop :=
  (acc.1 = none → acc.2 = pointAt origin dir maxDist) ∧
  ∀ bT, acc.1 = some bT →
    0 ≤ bT ∧ bT ≤ maxDist ∧ acc.2 = pointAt origin dir bT

/-- Source distance `sqrt(d.x * d.x + d.y * d.y)` between two points. -/
def dist2 (a b : Vec2) : ℝ :=
  Real.sqrt ((b.x - a.x) * (b.x - a.x) + (b.y - a.y) * (b.y - a.y))

/-- Division whose divisor carries a proof of being nonzero: forming it is
only possible once the near-parallel guard has been passed. -/
def divGuard (x y : ℝ) (_hy : y ≠ 0) : ℝ := x / y

/-- A quantity that passed the near-parallel guard is nonzero. -/
def ne_zero_of_not_near {x : ℝ} (h : ¬ |x| < 1e-8) : x ≠ 0 := by
  intro h0
  rw [h0, abs_zero] at h
  exact h (by norm_num)

/-- Variant of `raySegmentIntersect` in which each division is `divGuard`,
performed only under a proof that the divisor `cross2 r s` is nonzero, which
is available exactly because the `|cross2 r s| < 1e-8` branch has been
excluded. -/
def raySegmentIntersectGuarded (p r q s : Vec2) : Option (ℝ × Vec2) :=
  if h : |cross2 r s| < 1e-8 then none
  else if 0 ≤ divGuard (cross2 ⟨q.x - p.x, q.y - p.y⟩ s) (cross2 r s)
        (ne_zero_of_not_near h) ∧
      0 ≤ divGuard (cross2 ⟨q.x - p.x, q.y - p.y⟩ r) (cross2 r s)
        (ne_zero_of_not_near h) ∧
      divGuard (cross2 ⟨q.x - p.x, q.y - p.y⟩ r) (cross2 r s)
        (ne_zero_of_not_near h) ≤ 1 then
    some (divGuard (cross2 ⟨q.x - p.x, q.y - p.y⟩ s) (cross2 r s)
        (ne_zero_of_not_near h),
      pointAt p r (divGuard (cross2 ⟨q.x - p.x, q.y - p.y⟩ s) (cross2 r s)
        (ne_zero_of_not_near h)))
  else none

/-- An SFML `sf::Color`, four 8-bit channels modelled as naturals. -/
structure ColorN where
  r : ℕ
  g : ℕ
  b : ℕ
  a : ℕ

/-- One `sf::Vertex` of a fan: a position and a color. -/
structure FanVertex where
  pos : Vec2
  color : ColorN

/-- The per-vertex alpha computation of `buildSoftFan_Screen`:
`t = min(1, dist / maxDist)`, `a = 255 * (1 - t)`, `a = clamp(a, 0, 255)`,
`a = max(a, 25)`. -/
def softAlpha (originScreen : Vec2) (maxDist : ℝ) (p : Vec2) : ℝ :=
  max (min 255 (max 0 (255 * (1 - min 1 (dist2 originScreen p / maxDist))))) 25

/-- One non-center fan vertex as `buildSoftFan_Screen` appends it: the tint's
RGB with the distance-attenuated alpha truncated to a byte
(`static_cast<std::uint8_t>`; the value is already in `[25, 255]`). -/
def fanVertex (originScreen : Vec2) (maxDist : ℝ) (tint : ColorN) (p : Vec2) :
    FanVertex :=
  ⟨p, ⟨tint.r, tint.g, tint.b, ⌊softAlpha originScreen maxDist p⌋₊⟩⟩

/-- Source `buildSoftFan_Screen`: center vertex at full opacity, one vertex
per polygon point, and — only when the polygon is non-empty — the first
polygon point appended once more to close the fan. -/
def buildSoftFan_Screen (originScreen : Vec2) (polyScreen : List Vec2)
    (maxDist : ℝ) (tint : ColorN) : List FanVertex :=
  ⟨originScreen, ⟨tint.r, tint.g, tint.b, 255⟩⟩ ::
    (polyScreen.map (fanVertex originScreen maxDist tint) ++
      match polyScreen with
      | [] => []
      | p :: _ => [fanVertex originScreen maxDist tint p])

/-- The fan-draw render targets of the composition step in `main`. -/
inductive RenderTarget where
  | darknessLayer
  | frameBuffer

/-- The two fan blend modes of the composition step: `ERASE_BLEND` for the
darkness layer, `ADD_GLOW` for the frame buffer. -/
inductive FanBlend where
  | eraseBlend
  | addGlow

/-- One fan draw call issued by the darkness-overlay block of `main`. -/
structure FanDraw where
  target : RenderTarget
  blend : FanBlend
  fan : List FanVertex

/-- The fan draw calls of the darkness-overlay block of `main`
(lines 1046-1061): when the screen polygon has at least 3 points, the white
eraser fan is drawn into the darkness layer and the glow fan is drawn
additively onto the frame buffer; otherwise no fan draw is issued. -/
def visibilityFanDraws (originScreen : Vec2) (polyScreen : List Vec2)
    (maxDist : ℝ) (glowColor : ColorN) : List FanDraw :=
  if 3 ≤ polyScreen.length then
    [⟨RenderTarget.darknessLayer, FanBlend.eraseBlend,
        buildSoftFan_Screen originScreen polyScreen maxDist ⟨255, 255, 255, 255⟩⟩,
      ⟨RenderTarget.frameBuffer, FanBlend.addGlow,
        buildSoftFan_Screen originScreen polyScreen maxDist glowColor⟩]
  else []

/-- The vertex angles of a polygon as measured by `atan2` from the origin,
the quantity the spec's monotone-ordering property P3 speaks about. -/
def vertexAngles (origin : Vec2) (poly : List Vec2) : List ℝ :=
  poly.map fun v => atan2 (v.y - origin.y) (v.x - origin.x)

theorem raySegmentIntersect_eq_some_iff {p r q s : Vec2} {res : ℝ × Vec2} :
    raySegmentIntersect p r q s = some res ↔
      1e-8 ≤ |cross2 r s| ∧ 0 ≤ tSolved p r q s ∧ 0 ≤ uSolved p r q s ∧
        uSolved p r q s ≤ 1 ∧ res = (tSolved p r q s, pointAt p r (tSolved p r q s)) := by
  unfold raySegmentIntersect
  split_ifs with h1 h2
  · simp [not_le.mpr h1]
  · simp only [Option.some.injEq]
    constructor
    · rintro rfl
      exact ⟨not_lt.mp h1, h2.1, h2.2.1, h2.2.2, rfl⟩
    · rintro ⟨-, -, -, -, rfl⟩
      rfl
  · constructor
    · intro h
      exact absurd h (by simp)
    · rintro ⟨-, ht, hu0, hu1, rfl⟩
      exact absurd ⟨ht, hu0, hu1⟩ h2

theorem raySegmentIntersect_isSome_iff {p r q s : Vec2} :
    (raySegmentIntersect p r q s).isSome ↔
      1e-8 ≤ |cross2 r s| ∧ 0 ≤ tSolved p r q s ∧ 0 ≤ uSolved p r q s ∧
        uSolved p r q s ≤ 1 := by
  rw [Option.isSome_iff_exists]
  constructor
  · rintro ⟨res, hres⟩
    have h := raySegmentIntersect_eq_some_iff.mp hres
    exact ⟨h.1, h.2.1, h.2.2.1, h.2.2.2.1⟩
  · rintro ⟨h1, h2, h3, h4⟩
    exact ⟨_, raySegmentIntersect_eq_some_iff.mpr ⟨h1, h2, h3, h4, rfl⟩⟩

theorem castStep_eq_of_none {origin dir : Vec2} {maxDist : ℝ}
    {acc : Option ℝ × Vec2} {seg : Segment}
    (h : raySegmentIntersect origin dir seg.a (segDelta seg) = none) :
    castStep origin dir maxDist acc seg = acc := by
  simp only [castStep, h]

theorem castStep_eq_of_some_inf {origin dir : Vec2} {maxDist : ℝ}
    {acc : Option ℝ × Vec2} {seg : Segment} {tHit : ℝ} {hp : Vec2}
    (h : raySegmentIntersect origin dir seg.a (segDelta seg) = some (tHit, hp))
    (ha : acc.1 = none) :
    castStep origin dir maxDist acc seg =
      if tHit ≤ maxDist then (some tHit, hp) else acc := by
  simp only [castStep, h, ha]

theorem castStep_eq_of_some_best {origin dir : Vec2} {maxDist : ℝ}
    {acc : Option ℝ × Vec2} {seg : Segment} {tHit bT : ℝ} {hp : Vec2}
    (h : raySegmentIntersect origin dir seg.a (segDelta seg) = some (tHit, hp))
    (ha : acc.1 = some bT) :
    castStep origin dir maxDist acc seg =
      if tHit < bT ∧ tHit ≤ maxDist then (some tHit, hp) else acc := by
  simp only [castStep, h, ha]

theorem castStep_shape {origin dir : Vec2} {maxDist : ℝ}
    {acc : Option ℝ × Vec2} (hacc : accShape origin dir maxDist acc)
    (seg : Segment) :
    accShape origin dir maxDist (castStep origin dir maxDist acc seg) := by
  cases hrsi : raySegmentIntersect origin dir seg.a (segDelta seg) with
  | none => rw [castStep_eq_of_none hrsi]; exact hacc
  | some res =>
    obtain ⟨tHit, hp⟩ := res
    obtain ⟨hcr, ht0, -, -, hres⟩ := raySegmentIntersect_eq_some_iff.mp hrsi
    obtain ⟨ht1, ht2⟩ := Prod.mk.injEq .. ▸ hres
    cases hbt : acc.1 with
    | none =>
      rw [castStep_eq_of_some_inf hrsi hbt]
      by_cases hle : tHit ≤ maxDist
      · rw [if_pos hle]
        refine ⟨by simp, fun bT hbT => ?_⟩
        simp only [Option.some.injEq] at hbT
        subst hbT
        exact ⟨ht1 ▸ ht0, hle, ht2 ▸ ht1 ▸ rfl⟩
      · rw [if_neg hle]
        exact hacc
    | some bT =>
      rw [castStep_eq_of_some_best hrsi hbt]
      by_cases hle : tHit < bT ∧ tHit ≤ maxDist
      · rw [if_pos hle]
        refine ⟨by simp, fun bT2 hbT2 => ?_⟩
        simp only [Option.some.injEq] at hbT2
        subst hbT2
        exact ⟨ht1 ▸ ht0, hle.2, ht2 ▸ ht1 ▸ rfl⟩
      · rw [if_neg hle]
        exact hacc

theorem foldl_castStep_shape {origin dir : Vec2} {maxDist : ℝ}
    (L : List Segment) (acc : Option ℝ × Vec2)
    (hacc : accShape origin dir maxDist acc) :
    accShape origin dir maxDist
      (L.foldl (castStep origin dir maxDist) acc) := by
  induction L generalizing acc with
  | nil => exact hacc
  | cons seg L ih => exact ih _ (castStep_shape hacc seg)

theorem castRay_shape (origin : Vec2) (segs : List Segment) (maxDist ang : ℝ) :
    accShape origin (dirOf ang) maxDist (castRay origin segs maxDist ang) :=
  foldl_castStep_shape segs _ ⟨fun _ => rfl, fun _ h => by cases h⟩

theorem mem_visibilityPolygon {origin : Vec2} {segs : List Segment}
    {maxDist : ℝ} {v : Vec2}
    (hv : v ∈ computeVisibilityPolygon origin segs maxDist) :
    ∃ ang, ang ∈ segmentAngles origin segs ∧
      v = (castRay origin segs maxDist ang).2 := by
  obtain ⟨pr, hpr, hpr2⟩ := List.mem_map.mp hv
  have hperm := List.mergeSort_perm (visHits origin segs maxDist) hitLE
  have hmem : pr ∈ visHits origin segs maxDist := hperm.subset hpr
  obtain ⟨ang, hang, heq⟩ := List.mem_map.mp hmem
  exact ⟨ang, hang, by rw [← hpr2, ← heq]⟩

theorem dist2_pointAt (origin : Vec2) (ang t : ℝ) :
    dist2 origin (pointAt origin (dirOf ang) t) = |t| := by
  unfold dist2 pointAt dirOf
  simp only
  have h : (origin.x + t * Real.cos ang - origin.x) *
        (origin.x + t * Real.cos ang - origin.x) +
      (origin.y + t * Real.sin ang - origin.y) *
        (origin.y + t * Real.sin ang - origin.y) = t ^ 2 := by
    have hpy := Real.sin_sq_add_cos_sq ang
    nlinarith [hpy]
  rw [h, Real.sqrt_sq_eq_abs]

/-- C6: with a nonnegative `maxDist`, every vertex of the visibility polygon
is within distance `maxDist` of the origin (exactly, in the real model):
accepted hits satisfy `tHit ≤ maxDist` and the fallback point lies exactly
at distance `maxDist`. -/
theorem C6_range_bound (origin : Vec2) (segs : List Segment) (maxDist : ℝ)
    (hR : 0 ≤ maxDist) :
    (computeVisibilityPolygon origin segs maxDist).Forall fun v =>
      dist2 origin v ≤ maxDist := by
  rw [List.forall_iff_forall_mem]
  intro v hv
  obtain ⟨ang, -, hveq⟩ := mem_visibilityPolygon hv
  have hshape := castRay_shape origin segs maxDist ang
  cases hfin : (castRay origin segs maxDist ang).1 with
  | none =>
    rw [hveq, hshape.1 hfin, dist2_pointAt, abs_of_nonneg hR]
  | some bT =>
    obtain ⟨h0, hle, hpt⟩ := hshape.2 bT hfin
    rw [hveq, hpt, dist2_pointAt, abs_of_nonneg h0]
    exact hle

/-- C6 witness: the range bound instantiated at the spec's concrete scenario
(origin at the center, a single vertical wall, `maxRange = 10`). -/
theorem C6_range_bound_witness :
    (computeVisibilityPolygon ⟨0, 0⟩ [⟨⟨5, -1⟩, ⟨5, 1⟩⟩] 10).Forall fun v =>
      dist2 ⟨0, 0⟩ v ≤ 10 :=
  C6_range_bound ⟨0, 0⟩ [⟨⟨5, -1⟩, ⟨5, 1⟩⟩] 10 (by norm_num)

/-- C4: the visibility polygon has exactly one vertex per sampled angle:
`6 * |segs|` vertices, three samples per each of the two endpoints of each
segment; a ray with no accepted in-range hit still contributes its fallback
point. -/
theorem C4_vertex_count :
    ∀ (origin : Vec2) (segs : List Segment) (maxDist : ℝ),
      (computeVisibilityPolygon origin segs maxDist).length =
        6 * segs.length := by
  intro origin segs maxDist
  unfold computeVisibilityPolygon sortedHits visHits
  rw [List.length_map, List.length_mergeSort, List.length_map]
  induction segs with
  | nil => rfl
  | cons s l ih =>
    rw [segmentAngles, List.flatMap_cons, List.length_append,
      ← segmentAngles, ih]
    simp [anglesForPoint]
    omega

/-- C1 counterexample: with an empty segment list there is no segment
endpoint to sample, so `computeVisibilityPolygon` returns the empty list, not
a non-empty circle approximation. -/
theorem C1_counterexample :
    computeVisibilityPolygon ⟨0, 0⟩ [] 10 = [] := by
  simp [computeVisibilityPolygon, sortedHits, visHits, segmentAngles]

/-- C1 amended: for every origin and maxRange, the polygon for an empty
segment list is empty (all angle samples come from segment endpoints), so the
degenerate case is handled by the downstream fewer-than-3-points skip rather
than by a circle. Every vertex of this empty polygon vacuously lies at
distance maxRange. -/
theorem C1_empty_segments_empty_polygon :
    ∀ (origin : Vec2) (maxDist : ℝ),
      computeVisibilityPolygon origin [] maxDist = [] := by
  intro origin maxDist
  simp [computeVisibilityPolygon, sortedHits, visHits, segmentAngles]

/-- C3: `raySegmentIntersect` returns a hit exactly when the ray and segment
are non-parallel at the `1e-8` tolerance and the solved parameters satisfy
`0 ≤ t` and `0 ≤ u ≤ 1` (so `u = 0` and `u = 1`, a ray through a segment
endpoint, are accepted); near-parallel input yields `none`, not an error. -/
theorem C3_ray_hit_iff :
    ∀ p r q s : Vec2,
      (raySegmentIntersect p r q s).isSome ↔
        1e-8 ≤ |cross2 r s| ∧ 0 ≤ tSolved p r q s ∧ 0 ≤ uSolved p r q s ∧
          uSolved p r q s ≤ 1 :=
  fun _ _ _ _ => raySegmentIntersect_isSome_iff

/-- C10: `raySegmentIntersect` is total and divides only under the
near-parallel guard: it coincides with the guarded variant whose divisions
carry nonzero-divisor proofs, and whenever it returns a hit the divisor
satisfied `|cross2 r s| ≥ 1e-8`. -/
theorem C10_division_guarded :
    ∀ p r q s : Vec2,
      raySegmentIntersect p r q s = raySegmentIntersectGuarded p r q s ∧
      ∀ res, raySegmentIntersect p r q s = some res →
        1e-8 ≤ |cross2 r s| := by
  intro p r q s
  constructor
  · unfold raySegmentIntersect raySegmentIntersectGuarded divGuard
    unfold tSolved uSolved
    split_ifs <;> rfl
  · intro res h
    exact (raySegmentIntersect_eq_some_iff.mp h).1

/-- C7 counterexample: on the empty polygon the fan has a single (center)
vertex, not `0 + 2` vertices — the closing vertex is only appended when the
polygon is non-empty. -/
theorem C7_counterexample :
    (buildSoftFan_Screen ⟨0, 0⟩ [] 1 ⟨255, 255, 255, 255⟩).length = 1 := by
  simp [buildSoftFan_Screen]

/-- C7 amended: for every non-empty polygon of `N` points the fan has exactly
`N + 2` vertices: the center, one per polygon point in order, and the first
polygon point repeated at the end; the empty polygon yields only the center
vertex. -/
theorem C7_fan_closure (originScreen : Vec2) (polyScreen : List Vec2)
    (maxDist : ℝ) (tint : ColorN) (hne : polyScreen ≠ []) :
    (buildSoftFan_Screen originScreen polyScreen maxDist tint).length =
      polyScreen.length + 2 := by
  cases polyScreen with
  | nil => exact absurd rfl hne
  | cons p rest => simp [buildSoftFan_Screen]

/-- C7 witness: the fan over a one-point polygon has `1 + 2 = 3` vertices. -/
theorem C7_fan_closure_witness :
    (buildSoftFan_Screen ⟨0, 0⟩ [⟨1, 0⟩] 1 ⟨255, 255, 255, 255⟩).length = 3 := by
  simpa using
    C7_fan_closure ⟨0, 0⟩ [⟨1, 0⟩] 1 ⟨255, 255, 255, 255⟩ (by simp)

theorem softAlpha_eq_claim (o : Vec2) (R : ℝ) (p : Vec2) :
    softAlpha o R p =
      max (255 * max 0 (min 1 (1 - dist2 o p / R))) 25 := by
  unfold softAlpha
  set x := dist2 o p / R with hx
  have key : min 255 (max 0 (255 * (1 - min 1 x))) =
      255 * max 0 (min 1 (1 - x)) := by
    rcases le_total 1 x with h1 | h1
    · rw [min_eq_left h1, min_eq_right (by linarith : 1 - x ≤ 1),
        max_eq_left (by linarith : 1 - x ≤ 0)]
      norm_num
    · rw [min_eq_right h1]
      rcases le_total 0 x with h2 | h2
      · rw [max_eq_right (by linarith : (0:ℝ) ≤ 255 * (1 - x)),
          min_eq_right (by linarith : 255 * (1 - x) ≤ 255),
          min_eq_right (by linarith : 1 - x ≤ 1),
          max_eq_right (by linarith : (0:ℝ) ≤ 1 - x)]
      · rw [max_eq_right (by linarith : (0:ℝ) ≤ 255 * (1 - x)),
          min_eq_left (by linarith : (255:ℝ) ≤ 255 * (1 - x)),
          min_eq_left (by linarith : (1:ℝ) ≤ 1 - x)]
        norm_num
  rw [key]

theorem fanVertex_alpha (o : Vec2) (R : ℝ) (tint : ColorN) (p : Vec2) :
    (fanVertex o R tint p).color =
      ⟨tint.r, tint.g, tint.b,
        ⌊max (255 * max 0 (min 1 (1 - dist2 o (fanVertex o R tint p).pos / R)))
          25⌋₊⟩ ∧
    25 ≤ (fanVertex o R tint p).color.a := by
  constructor
  · show (⟨tint.r, tint.g, tint.b, ⌊softAlpha o R p⌋₊⟩ : ColorN) = _
    rw [softAlpha_eq_claim]
    rfl
  · show 25 ≤ ⌊softAlpha o R p⌋₊
    refine Nat.le_floor ?_
    push_cast
    exact le_max_right _ _

/-- C8: in every fan the center vertex carries the tint at alpha 255, and
every non-center vertex carries the tint with alpha
`255 * clamp(1 - dist/maxRange, 0, 1)` clamped below at 25 (truncated to a
byte), hence never below 25 even at or beyond `maxRange`. -/
theorem C8_fan_alpha :
    ∀ (originScreen : Vec2) (polyScreen : List Vec2) (maxDist : ℝ)
      (tint : ColorN),
      (buildSoftFan_Screen originScreen polyScreen maxDist tint).head? =
        some ⟨originScreen, ⟨tint.r, tint.g, tint.b, 255⟩⟩ ∧
      (buildSoftFan_Screen originScreen polyScreen maxDist tint).tail.Forall
        fun vtx =>
          vtx.color = ⟨tint.r, tint.g, tint.b,
            ⌊max (255 * max 0 (min 1 (1 - dist2 originScreen vtx.pos / maxDist)))
              25⌋₊⟩ ∧
          25 ≤ vtx.color.a := by
  intro originScreen polyScreen maxDist tint
  refine ⟨rfl, ?_⟩
  rw [List.forall_iff_forall_mem]
  intro vtx hvtx
  simp only [buildSoftFan_Screen, List.tail_cons] at hvtx
  rcases List.mem_append.mp hvtx with hmem | hmem
  · obtain ⟨p, -, rfl⟩ := List.mem_map.mp hmem
    exact fanVertex_alpha originScreen maxDist tint p
  · cases polyScreen with
    | nil => cases hmem
    | cons p rest =>
      rcases List.mem_singleton.mp hmem with rfl
      exact fanVertex_alpha originScreen maxDist tint p

/-- C9: with fewer than 3 polygon points the composition block issues no fan
draw at all; with at least 3 points it issues exactly the eraser draw into
the darkness layer followed by the additive glow draw onto the frame
buffer. -/
theorem C9_degenerate_skip :
    ∀ (originScreen : Vec2) (polyScreen : List Vec2) (maxDist : ℝ)
      (glowColor : ColorN),
      (polyScreen.length < 3 →
        visibilityFanDraws originScreen polyScreen maxDist glowColor = []) ∧
      (3 ≤ polyScreen.length →
        visibilityFanDraws originScreen polyScreen maxDist glowColor =
          [⟨RenderTarget.darknessLayer, FanBlend.eraseBlend,
              buildSoftFan_Screen originScreen polyScreen maxDist
                ⟨255, 255, 255, 255⟩⟩,
            ⟨RenderTarget.frameBuffer, FanBlend.addGlow,
              buildSoftFan_Screen originScreen polyScreen maxDist glowColor⟩]) := by
  intro originScreen polyScreen maxDist glowColor
  constructor
  · intro hlt
    rw [visibilityFanDraws, if_neg (by omega)]
  · intro hge
    rw [visibilityFanDraws, if_pos hge]

/-- C5 amended: the polygon lists the hit points in non-decreasing order of
their sampled angles (the order `std::sort` establishes); sampled angles may
exceed `(-pi, pi]` by `eps`, so the `atan2`-measured vertex angles need not
be non-decreasing at the wraparound (see the counterexample). -/
theorem C5_sorted_by_sample_angle :
    ∀ (origin : Vec2) (segs : List Segment) (maxDist : ℝ),
      List.Sorted (fun h1 h2 : ℝ × Vec2 => h1.1 ≤ h2.1)
        (sortedHits origin segs maxDist) ∧
      computeVisibilityPolygon origin segs maxDist =
        (sortedHits origin segs maxDist).map Prod.snd := by
  intro origin segs maxDist
  refine ⟨?_, rfl⟩
  have h := @List.sorted_mergeSort (ℝ × Vec2) hitLE
    (fun a b c hab hbc => by
      simp only [hitLE, decide_eq_true_eq] at *
      exact le_trans hab hbc)
    (fun a b => by
      simp only [hitLE, Bool.or_eq_true, decide_eq_true_eq]
      exact le_total a.1 b.1)
    (visHits origin segs maxDist)
  exact h.imp fun hab => by simpa [hitLE] using hab

theorem atan2_real_smul (r y x : ℝ) (hr : 0 < r) :
    atan2 (r * y) (r * x) = atan2 y x := by
  unfold atan2
  rw [show (⟨r * x, r * y⟩ : ℂ) = (r : ℂ) * ⟨x, y⟩ from
    Complex.ext (by simp) (by simp)]
  exact Complex.arg_real_mul _ hr

theorem atan2_sin_cos {θ : ℝ} (h1 : -Real.pi < θ) (h2 : θ ≤ Real.pi) :
    atan2 (Real.sin θ) (Real.cos θ) = θ := by
  unfold atan2
  have h : (⟨Real.cos θ, Real.sin θ⟩ : ℂ) =
      Complex.cos θ + Complex.sin θ * Complex.I := by
    apply Complex.ext <;>
      simp [Complex.cos_ofReal_re, Complex.sin_ofReal_re, Complex.cos_ofReal_im,
        Complex.sin_ofReal_im]
  rw [h]
  exact Complex.arg_cos_add_sin_mul_I ⟨h1, h2⟩

theorem cex_atan2_b : atan2 0 (-10) = Real.pi := by
  unfold atan2
  have h : (⟨-10, 0⟩ : ℂ) = ((-10 : ℝ) : ℂ) := by
    apply Complex.ext <;> simp
  rw [h]
  exact Complex.arg_ofReal_of_neg (by norm_num)

theorem cex_atan2_A :
    atan2 (10 * Real.sin (2 * visEps)) (-(10 * Real.cos (2 * visEps))) =
      Real.pi - 2 * visEps := by
  have hv : visEps = 0.0007 := rfl
  have hπ := Real.pi_gt_three
  rw [show -((10 : ℝ) * Real.cos (2 * visEps)) =
      10 * (-Real.cos (2 * visEps)) by ring]
  rw [atan2_real_smul 10 (Real.sin (2 * visEps)) (-Real.cos (2 * visEps))
    (by norm_num)]
  rw [← Real.sin_pi_sub, ← Real.cos_pi_sub]
  exact atan2_sin_cos (by linarith) (by linarith)

theorem cex_angles :
    segmentAngles ⟨0, 0⟩
        [⟨⟨-10 * Real.cos (2 * visEps), 10 * Real.sin (2 * visEps)⟩, ⟨-10, 0⟩⟩] =
      [Real.pi - 2 * visEps - visEps, Real.pi - 2 * visEps,
       Real.pi - 2 * visEps + visEps, Real.pi - visEps, Real.pi,
       Real.pi + visEps] := by
  simp [segmentAngles, anglesForPoint, sub_zero, cex_atan2_A, cex_atan2_b]

theorem cex_denom_lt :
    10 * Real.sin (2 * visEps) + 10 * (1 - Real.cos (2 * visEps)) <
      100 * Real.sin (2 * visEps) := by
  have hv : visEps = 0.0007 := rfl
  have hsle : Real.sin visEps ≤ visEps := Real.sin_le (by rw [hv]; norm_num)
  have hπ := Real.pi_gt_three
  have hsnn : 0 ≤ Real.sin visEps :=
    Real.sin_nonneg_of_nonneg_of_le_pi (by rw [hv]; norm_num) (by linarith)
  have hcos2 := Real.cos_two_mul visEps
  have hpyth := Real.sin_sq_add_cos_sq visEps
  have h1c : 1 - Real.cos (2 * visEps) ≤ 2 * visEps ^ 2 := by
    nlinarith [hcos2, hpyth, hsle, hsnn]
  have hsin2 : 2 * visEps - (2 * visEps) ^ 3 / 4 < Real.sin (2 * visEps) :=
    Real.sin_gt_sub_cube (by rw [hv]; norm_num) (by rw [hv]; norm_num)
  rw [hv] at h1c hsin2 ⊢
  norm_num at h1c hsin2 ⊢
  linarith [h1c, hsin2]

theorem cex_tSolved_gt (ang : ℝ)
    (h0 : 0 ≤ tSolved ⟨0, 0⟩ (dirOf ang)
      (Segment.a ⟨⟨-10 * Real.cos (2 * visEps), 10 * Real.sin (2 * visEps)⟩,
        ⟨-10, 0⟩⟩)
      (segDelta ⟨⟨-10 * Real.cos (2 * visEps), 10 * Real.sin (2 * visEps)⟩,
        ⟨-10, 0⟩⟩))
    (hcr : 1e-8 ≤ |cross2 (dirOf ang)
      (segDelta ⟨⟨-10 * Real.cos (2 * visEps), 10 * Real.sin (2 * visEps)⟩,
        ⟨-10, 0⟩⟩)|) :
    1 < tSolved ⟨0, 0⟩ (dirOf ang)
      (Segment.a ⟨⟨-10 * Real.cos (2 * visEps), 10 * Real.sin (2 * visEps)⟩,
        ⟨-10, 0⟩⟩)
      (segDelta ⟨⟨-10 * Real.cos (2 * visEps), 10 * Real.sin (2 * visEps)⟩,
        ⟨-10, 0⟩⟩) := by
  have hv : visEps = 0.0007 := rfl
  have hπ := Real.pi_gt_three
  have hs2pos : 0 < Real.sin (2 * visEps) :=
    Real.sin_pos_of_pos_of_lt_pi (by rw [hv]; norm_num) (by rw [hv]; linarith)
  have hts : tSolved ⟨0, 0⟩ (dirOf ang)
      (Segment.a ⟨⟨-10 * Real.cos (2 * visEps), 10 * Real.sin (2 * visEps)⟩,
        ⟨-10, 0⟩⟩)
      (segDelta ⟨⟨-10 * Real.cos (2 * visEps), 10 * Real.sin (2 * visEps)⟩,
        ⟨-10, 0⟩⟩) =
      100 * Real.sin (2 * visEps) / cross2 (dirOf ang)
        (segDelta ⟨⟨-10 * Real.cos (2 * visEps), 10 * Real.sin (2 * visEps)⟩,
          ⟨-10, 0⟩⟩) := by
    unfold tSolved
    congr 1
    unfold cross2 segDelta
    norm_num
    ring
  have hEbound : cross2 (dirOf ang)
      (segDelta ⟨⟨-10 * Real.cos (2 * visEps), 10 * Real.sin (2 * visEps)⟩,
        ⟨-10, 0⟩⟩) ≤
      10 * Real.sin (2 * visEps) + 10 * (1 - Real.cos (2 * visEps)) := by
    have hca := Real.neg_one_le_cos ang
    have hsa := Real.sin_le_one ang
    have hc2 := Real.cos_le_one (2 * visEps)
    have hp1 : 0 ≤ 10 * Real.sin (2 * visEps) * (1 + Real.cos ang) :=
      mul_nonneg (by linarith) (by linarith)
    have hp2 : 0 ≤ (10 - 10 * Real.cos (2 * visEps)) * (1 - Real.sin ang) :=
      mul_nonneg (by linarith) (by linarith)
    unfold cross2 segDelta dirOf
    norm_num
    nlinarith [hp1, hp2]
  have hEne : cross2 (dirOf ang)
      (segDelta ⟨⟨-10 * Real.cos (2 * visEps), 10 * Real.sin (2 * visEps)⟩,
        ⟨-10, 0⟩⟩) ≠ 0 := by
    intro hz
    rw [hz, abs_zero] at hcr
    norm_num at hcr
  have hEpos : 0 < cross2 (dirOf ang)
      (segDelta ⟨⟨-10 * Real.cos (2 * visEps), 10 * Real.sin (2 * visEps)⟩,
        ⟨-10, 0⟩⟩) := by
    rcases lt_or_gt_of_ne hEne with hlt | hgt
    · rw [hts] at h0
      exact absurd h0
        (not_le.mpr (div_neg_of_pos_of_neg (by linarith [hs2pos]) hlt))
    · exact hgt
  rw [hts, one_lt_div hEpos]
  exact lt_of_le_of_lt hEbound cex_denom_lt

theorem cex_castRay (ang : ℝ) :
    castRay ⟨0, 0⟩
        [⟨⟨-10 * Real.cos (2 * visEps), 10 * Real.sin (2 * visEps)⟩, ⟨-10, 0⟩⟩]
        1 ang =
      (none, pointAt ⟨0, 0⟩ (dirOf ang) 1) := by
  unfold castRay
  rw [List.foldl_cons, List.foldl_nil]
  cases hrsi : raySegmentIntersect ⟨0, 0⟩ (dirOf ang)
      (Segment.a ⟨⟨-10 * Real.cos (2 * visEps), 10 * Real.sin (2 * visEps)⟩,
        ⟨-10, 0⟩⟩)
      (segDelta ⟨⟨-10 * Real.cos (2 * visEps), 10 * Real.sin (2 * visEps)⟩,
        ⟨-10, 0⟩⟩) with
  | none => rw [castStep_eq_of_none hrsi]
  | some res =>
    obtain ⟨tHit, hp⟩ := res
    obtain ⟨hcr, ht0, -, -, hres⟩ := raySegmentIntersect_eq_some_iff.mp hrsi
    have htEq : tHit = tSolved ⟨0, 0⟩ (dirOf ang)
        (Segment.a ⟨⟨-10 * Real.cos (2 * visEps), 10 * Real.sin (2 * visEps)⟩,
          ⟨-10, 0⟩⟩)
        (segDelta ⟨⟨-10 * Real.cos (2 * visEps), 10 * Real.sin (2 * visEps)⟩,
          ⟨-10, 0⟩⟩) :=
      congrArg Prod.fst hres
    have hgt : ¬ tHit ≤ (1 : ℝ) := by
      rw [htEq]
      exact not_le.mpr (cex_tSolved_gt ang ht0 hcr)
    rw [castStep_eq_of_some_inf hrsi rfl, if_neg hgt]

theorem cex_poly :
    computeVisibilityPolygon ⟨0, 0⟩
        [⟨⟨-10 * Real.cos (2 * visEps), 10 * Real.sin (2 * visEps)⟩, ⟨-10, 0⟩⟩]
        1 =
      [pointAt ⟨0, 0⟩ (dirOf (Real.pi - 2 * visEps - visEps)) 1,
       pointAt ⟨0, 0⟩ (dirOf (Real.pi - 2 * visEps)) 1,
       pointAt ⟨0, 0⟩ (dirOf (Real.pi - 2 * visEps + visEps)) 1,
       pointAt ⟨0, 0⟩ (dirOf (Real.pi - visEps)) 1,
       pointAt ⟨0, 0⟩ (dirOf Real.pi) 1,
       pointAt ⟨0, 0⟩ (dirOf (Real.pi + visEps)) 1] := by
  have hvis : visHits ⟨0, 0⟩
      [⟨⟨-10 * Real.cos (2 * visEps), 10 * Real.sin (2 * visEps)⟩, ⟨-10, 0⟩⟩]
      1 =
      [(Real.pi - 2 * visEps - visEps,
        pointAt ⟨0, 0⟩ (dirOf (Real.pi - 2 * visEps - visEps)) 1),
       (Real.pi - 2 * visEps,
        pointAt ⟨0, 0⟩ (dirOf (Real.pi - 2 * visEps)) 1),
       (Real.pi - 2 * visEps + visEps,
        pointAt ⟨0, 0⟩ (dirOf (Real.pi - 2 * visEps + visEps)) 1),
       (Real.pi - visEps, pointAt ⟨0, 0⟩ (dirOf (Real.pi - visEps)) 1),
       (Real.pi, pointAt ⟨0, 0⟩ (dirOf Real.pi) 1),
       (Real.pi + visEps, pointAt ⟨0, 0⟩ (dirOf (Real.pi + visEps)) 1)] := by
    rw [visHits, cex_angles]
    simp only [List.map_cons, List.map_nil, cex_castRay]
  have hv : visEps = 0.0007 := rfl
  have hπ := Real.pi_gt_three
  have hpair : List.Pairwise (fun a b : ℝ × Vec2 => hitLE a b = true)
      [(Real.pi - 2 * visEps - visEps,
        pointAt ⟨0, 0⟩ (dirOf (Real.pi - 2 * visEps - visEps)) 1),
       (Real.pi - 2 * visEps,
        pointAt ⟨0, 0⟩ (dirOf (Real.pi - 2 * visEps)) 1),
       (Real.pi - 2 * visEps + visEps,
        pointAt ⟨0, 0⟩ (dirOf (Real.pi - 2 * visEps + visEps)) 1),
       (Real.pi - visEps, pointAt ⟨0, 0⟩ (dirOf (Real.pi - visEps)) 1),
       (Real.pi, pointAt ⟨0, 0⟩ (dirOf Real.pi) 1),
       (Real.pi + visEps, pointAt ⟨0, 0⟩ (dirOf (Real.pi + visEps)) 1)] := by
    simp [List.pairwise_cons, hitLE, decide_eq_true_eq]
    repeat' apply And.intro
    all_goals linarith
  rw [computeVisibilityPolygon, sortedHits, hvis,
    List.mergeSort_of_sorted hpair]
  simp

theorem cex_vertexAngles :
    vertexAngles ⟨0, 0⟩
        (computeVisibilityPolygon ⟨0, 0⟩
          [⟨⟨-10 * Real.cos (2 * visEps), 10 * Real.sin (2 * visEps)⟩,
            ⟨-10, 0⟩⟩] 1) =
      [Real.pi - 2 * visEps - visEps, Real.pi - 2 * visEps,
       Real.pi - 2 * visEps + visEps, Real.pi - visEps, Real.pi,
       visEps - Real.pi] := by
  have hv : visEps = 0.0007 := rfl
  have hπ := Real.pi_gt_three
  have hwrap : atan2 (Real.sin (Real.pi + visEps))
      (Real.cos (Real.pi + visEps)) = visEps - Real.pi := by
    have hs := Real.sin_add_two_pi (visEps - Real.pi)
    have hc := Real.cos_add_two_pi (visEps - Real.pi)
    rw [show visEps - Real.pi + 2 * Real.pi = Real.pi + visEps by ring] at hs hc
    rw [hs, hc]
    exact atan2_sin_cos (by linarith) (by linarith)
  have hnegone : atan2 0 (-1) = Real.pi := by
    unfold atan2
    rw [show (⟨-1, 0⟩ : ℂ) = ((-1 : ℝ) : ℂ) from Complex.ext (by simp) (by simp)]
    exact Complex.arg_ofReal_of_neg (by norm_num)
  rw [cex_poly]
  unfold vertexAngles
  simp only [List.map_cons, List.map_nil, pointAt, dirOf]
  norm_num
  refine ⟨?_, ?_, ?_, ?_, hnegone, hwrap⟩
  · exact atan2_sin_cos (by linarith) (by linarith)
  · rw [← Real.sin_pi_sub, ← Real.cos_pi_sub]
    exact atan2_sin_cos (by linarith) (by linarith)
  · exact atan2_sin_cos (by linarith) (by linarith)
  · rw [← Real.sin_pi_sub, ← Real.cos_pi_sub]
    exact atan2_sin_cos (by linarith) (by linarith)

/-- C5 counterexample: for origin `(0,0)`, the single segment from
`(-10 cos 2eps, 10 sin 2eps)` (at angle `pi - 2 eps`) to `(-10, 0)` (at angle
`pi`) and `maxRange = 1`, both parts of the claim fail: the `atan2`-measured
vertex angles are not non-decreasing (the `pi + eps` sample wraps around to
`eps - pi`, below the vertex at angle `pi`), and the polygon carries a
duplicate angle `pi - eps` that no single endpoint's epsilon-bracket triple
accounts for — the two endpoints' triples are each duplicate-free and
distinct, yet overlap in the sample `pi - eps`. -/
theorem C5_counterexample :
    ¬ List.Sorted (fun a b : ℝ => a ≤ b)
        (vertexAngles ⟨0, 0⟩
          (computeVisibilityPolygon ⟨0, 0⟩
            [⟨⟨-10 * Real.cos (2 * visEps), 10 * Real.sin (2 * visEps)⟩,
              ⟨-10, 0⟩⟩] 1)) ∧
    ¬ (vertexAngles ⟨0, 0⟩
          (computeVisibilityPolygon ⟨0, 0⟩
            [⟨⟨-10 * Real.cos (2 * visEps), 10 * Real.sin (2 * visEps)⟩,
              ⟨-10, 0⟩⟩] 1)).Nodup ∧
    (anglesForPoint ⟨0, 0⟩
        ⟨-10 * Real.cos (2 * visEps), 10 * Real.sin (2 * visEps)⟩).Nodup ∧
    (anglesForPoint ⟨0, 0⟩ ⟨-10, 0⟩).Nodup ∧
    anglesForPoint ⟨0, 0⟩
        ⟨-10 * Real.cos (2 * visEps), 10 * Real.sin (2 * visEps)⟩ ≠
      anglesForPoint ⟨0, 0⟩ ⟨-10, 0⟩ := by
  have hv : visEps = 0.0007 := rfl
  have hπ := Real.pi_gt_three
  have hTa : anglesForPoint ⟨0, 0⟩
      ⟨-10 * Real.cos (2 * visEps), 10 * Real.sin (2 * visEps)⟩ =
      [Real.pi - 2 * visEps - visEps, Real.pi - 2 * visEps,
       Real.pi - 2 * visEps + visEps] := by
    simp [anglesForPoint, sub_zero, cex_atan2_A]
  have hTb : anglesForPoint ⟨0, 0⟩ ⟨-10, 0⟩ =
      [Real.pi - visEps, Real.pi, Real.pi + visEps] := by
    simp [anglesForPoint, sub_zero, cex_atan2_b]
  refine ⟨?_, ?_, ?_, ?_, ?_⟩
  · rw [cex_vertexAngles]
    intro hs
    have hsub : List.Sublist [Real.pi, visEps - Real.pi]
        [Real.pi - 2 * visEps - visEps, Real.pi - 2 * visEps,
         Real.pi - 2 * visEps + visEps, Real.pi - visEps, Real.pi,
         visEps - Real.pi] :=
      List.sublist_append_right
        [Real.pi - 2 * visEps - visEps, Real.pi - 2 * visEps,
         Real.pi - 2 * visEps + visEps, Real.pi - visEps]
        [Real.pi, visEps - Real.pi]
    have h2 := List.Pairwise.sublist hsub hs
    have h3 : Real.pi ≤ visEps - Real.pi :=
      (List.pairwise_cons.mp h2).1 _ (List.mem_singleton.mpr rfl)
    linarith
  · rw [cex_vertexAngles]
    intro hnd
    have hsub : List.Sublist
        [Real.pi - 2 * visEps + visEps, Real.pi - visEps]
        [Real.pi - 2 * visEps - visEps, Real.pi - 2 * visEps,
         Real.pi - 2 * visEps + visEps, Real.pi - visEps, Real.pi,
         visEps - Real.pi] :=
      List.Sublist.trans
        (List.sublist_append_left
          [Real.pi - 2 * visEps + visEps, Real.pi - visEps]
          [Real.pi, visEps - Real.pi])
        (List.sublist_append_right
          [Real.pi - 2 * visEps - visEps, Real.pi - 2 * visEps]
          [Real.pi - 2 * visEps + visEps, Real.pi - visEps, Real.pi,
           visEps - Real.pi])
    have h2 := List.Pairwise.sublist hsub hnd
    have h3 : Real.pi - 2 * visEps + visEps ≠ Real.pi - visEps :=
      (List.pairwise_cons.mp h2).1 _ (List.mem_singleton.mpr rfl)
    exact h3 (by ring)
  · rw [hTa]
    simp [List.nodup_cons]
    repeat' apply And.intro
    all_goals intro h
    all_goals linarith
  · rw [hTb]
    simp [List.nodup_cons]
    repeat' apply And.intro
    all_goals intro h
    all_goals linarith
  · rw [hTa, hTb]
    intro h
    have h1 : Real.pi - 2 * visEps - visEps = Real.pi - visEps :=
      (List.cons.injEq .. ▸ h).1
    linarith

end

end MyGame
